import Mathlib

/-!
Verification development for the Magic 8-Ball Devvit server
(`src/server/index.ts` of the reddit-devvit-bolt-starter repository).

The server is shallowly embedded as follows.

* JavaScript strings are embedded as `List Char` (`Str`); string literals
  are injected with `strOf`.
* `Date.now()` values and subscriber counts are `Nat`.
* Each `Math.random()` call site receives its draw as an injected exact
  rational `num/den` (two `Nat`s with `num < den`), so that
  `Math.floor(r * n) = num * n / den` in `Nat` arithmetic.
* The Redis keyspace is an insertion-ordered association list; `SET` on an
  existing key updates it in place, `SET` on a fresh key appends, `KEYS`
  enumerates keys in list order and filters by glob.  TTLs (`expire`) do
  not change the visible contents within the single-request time scope
  treated here, so `expire` only contributes its possible failure.
* `JSON.stringify`/`JSON.parse` of the stored records are modelled by a
  structured value type `RVal`; values that are not an encoded answer
  record do not decode (the theorems below only traverse entries that
  decode, so the thrown-`SyntaxError` path of `JSON.parse` is never
  reached in them).
* A store operation that fails raises, which the source's `try/catch`
  turns into a 500 response; each operation's success is an injected
  boolean in the request environment.
-/

/-- JavaScript strings, embedded as lists of characters. -/
abbrev Str := List Char

/-- Injection of a Lean string literal into `Str`. -/
def strOf (s : String) : Str := s.data

/-- Whitespace recognised by `String.prototype.trim` (ASCII portion). -/
def isJsSpace (c : Char) : Bool :=
  c = ' ' || c = '\t' || c = '\n' || c = '\r' || c = '\x0b' || c = '\x0c'

/-- `s.trim()`. -/
def jsTrim (s : Str) : Str :=
  ((s.dropWhile isJsSpace).reverse.dropWhile isJsSpace).reverse

/-- The decimal digit character for `n < 10`. -/
def digitChar (n : Nat) : Char := Char.ofNat (48 + n)

/-- Fuelled decimal rendering (fuel keeps the recursion structural, so
terms reduce inside `decide`). -/
def digitsAux : Nat → Nat → List Char
  | 0, _ => []
  | fuel + 1, n =>
    if n < 10 then [digitChar n]
    else digitsAux fuel (n / 10) ++ [digitChar (n % 10)]

/-- Decimal rendering of a natural number, as produced by JavaScript
template interpolation of a nonnegative integer. -/
def natToDigits (n : Nat) : List Char := digitsAux (n + 1) n

/-- Numeric value of a decimal digit character. -/
def digitVal (c : Char) : Nat := c.toNat - 48

/-- Value of a list of decimal digit characters. -/
def natOfDigits (l : List Char) : Nat :=
  l.foldl (fun a c => a * 10 + digitVal c) 0

/-- `parseInt(s)` on the strings reached here: value of the leading run
of decimal digits (`NaN`, which only arises when there is no leading
digit, is collapsed to `0`; no key handled by the theorems below ever
takes that branch). -/
def jsParseInt (s : Str) : Nat := natOfDigits (s.takeWhile Char.isDigit)

/-- `s.split(sep)` for a single-character separator, JavaScript
semantics (empty fields are kept). -/
def splitOnChar (sep : Char) : Str → List Str
  | [] => [[]]
  | c :: cs =>
    if c = sep then [] :: splitOnChar sep cs
    else
      match splitOnChar sep cs with
      | [] => [[c]]
      | g :: gs => (c :: g) :: gs

/-- Fuelled glob matcher for Redis `KEYS` patterns; only `*` is treated
as a wildcard (the server's patterns contain no other metacharacter). -/
def globMatchAux : Nat → Str → Str → Bool
  | 0, _, _ => false
  | fuel + 1, ps, ks =>
    match ps with
    | [] => ks.isEmpty
    | p :: ps2 =>
      if p = '*' then
        globMatchAux fuel ps2 ks ||
          (match ks with
           | [] => false
           | _ :: ks2 => globMatchAux fuel (p :: ps2) ks2)
      else
        match ks with
        | [] => false
        | k :: ks2 => p = k && globMatchAux fuel ps2 ks2

/-- Redis glob matching of `pattern` against `key`. -/
def globMatch (ps ks : Str) : Bool :=
  globMatchAux (ps.length + ks.length + 1) ps ks

/-- `Math.floor(r * n)` for an exact random draw `r = num / den`
with `0 ≤ r < 1` (i.e. `num < den`). -/
def jsRandFloor (num den n : Nat) : Nat := num * n / den

theorem jsRandFloor_lt (num den n : Nat) (hr : num < den) (hn : 0 < n) :
    jsRandFloor num den n < n := by
  have hden : 0 < den := Nat.lt_of_le_of_lt (Nat.zero_le _) hr
  have : num * n < n * den := by
    rw [Nat.mul_comm n den]
    exact Nat.mul_lt_mul_of_lt_of_le hr (Nat.le_refl n) hn
  exact (Nat.div_lt_iff_lt_mul hden).mpr this

-- ### Correctness of decimal rendering/parsing

theorem digitVal_digitChar {n : Nat} (h : n < 10) :
    digitVal (digitChar n) = n := by
  interval_cases n <;> decide

theorem digitChar_isDigit {n : Nat} (h : n < 10) :
    (digitChar n).isDigit = true := by
  interval_cases n <;> decide

theorem natOfDigits_append_singleton (l : List Char) (c : Char) :
    natOfDigits (l ++ [c]) = natOfDigits l * 10 + digitVal c := by
  simp [natOfDigits, List.foldl_append]

theorem natOfDigits_digitsAux (fuel n : Nat) (h : n < fuel) :
    natOfDigits (digitsAux fuel n) = n := by
  induction fuel generalizing n with
  | zero => omega
  | succ fuel ih =>
    by_cases hn : n < 10
    · simp [digitsAux, hn, natOfDigits, digitVal_digitChar hn]
    · have hp : n / 10 < fuel := by omega
      simp [digitsAux, hn, natOfDigits_append_singleton, ih _ hp,
        digitVal_digitChar (Nat.mod_lt n (by omega))]
      omega

/-- Rendering a natural number in decimal and parsing it back is the
identity. -/
theorem natOfDigits_natToDigits (n : Nat) :
    natOfDigits (natToDigits n) = n :=
  natOfDigits_digitsAux (n + 1) n (Nat.lt_succ_self n)

theorem natToDigits_injective : Function.Injective natToDigits := by
  intro a b h
  have := natOfDigits_natToDigits a
  rw [h, natOfDigits_natToDigits] at this
  omega

theorem digitsAux_ne_nil (fuel n : Nat) (h : n < fuel) :
    digitsAux fuel n ≠ [] := by
  cases fuel with
  | zero => omega
  | succ fuel =>
    by_cases hn : n < 10 <;> simp [digitsAux, hn]

theorem natToDigits_ne_nil (n : Nat) : natToDigits n ≠ [] :=
  digitsAux_ne_nil (n + 1) n (Nat.lt_succ_self n)

theorem digitsAux_all_digits (fuel n : Nat) (h : n < fuel) :
    ∀ c ∈ digitsAux fuel n, c.isDigit = true := by
  induction fuel generalizing n with
  | zero => omega
  | succ fuel ih =>
    by_cases hn : n < 10
    · simp [digitsAux, hn, digitChar_isDigit hn]
    · have hp : n / 10 < fuel := by omega
      intro c hc
      simp only [digitsAux, hn, if_false, List.mem_append,
        List.mem_singleton] at hc
      rcases hc with hc | hc
      · exact ih _ hp c hc
      · subst hc; exact digitChar_isDigit (Nat.mod_lt n (by omega))

theorem natToDigits_all_digits (n : Nat) :
    ∀ c ∈ natToDigits n, c.isDigit = true :=
  digitsAux_all_digits (n + 1) n (Nat.lt_succ_self n)

/-- A decimal rendering starts with a digit character. -/
theorem natToDigits_head_digit (n : Nat) :
    ∃ c cs, natToDigits n = c :: cs ∧ c.isDigit = true := by
  rcases h : natToDigits n with _ | ⟨c, cs⟩
  · exact absurd h (natToDigits_ne_nil n)
  · exact ⟨c, cs, rfl, natToDigits_all_digits n c (by rw [h]; exact List.mem_cons_self _ _)⟩

-- ### Data model (`src/shared/types/game.ts` and the server's own shapes)

/-- A normalized subreddit rule, as built by `getSubredditInfo`. -/
structure SubRule where
  shortName : Str
  description : Str
deriving DecidableEq, Repr

/-- `SubredditInfo` from the shared types: the community-metadata
snapshot consumed by the pool builder. -/
structure SubredditInfo where
  name : Str
  displayName : Str
  description : Option Str
  subscribers : Option Nat
  rules : Option (List SubRule)
  flairEnabled : Bool
deriving DecidableEq, Repr

/-- A raw rule as returned by `context.reddit.getSubredditRules`. -/
structure RawRule where
  shortName : Option Str
  violationReason : Option Str
  description : Option Str
deriving DecidableEq, Repr

/-- A raw subreddit as returned by `context.reddit.getCurrentSubreddit`. -/
structure RawSubreddit where
  name : Str
  displayName : Option Str
  description : Option Str
  subscribers : Option Nat
  userFlairEnabled : Option Bool
deriving DecidableEq, Repr

/-- The external directory service (the two `context.reddit` calls made
by `getSubredditInfo`); `.error` models a thrown failure. -/
structure Directory where
  current : Except Unit RawSubreddit
  rulesFor : Except Unit (Option (List RawRule))

/-- JavaScript `a || b` for an optional string `a` (both `undefined`
and the empty string are falsy). -/
def jsOrStr (a : Option Str) (b : Str) : Str :=
  match a with
  | some s => if s = [] then b else s
  | none => b

/-- Normalization of one raw rule:
`shortName || violationReason || 'Rule'` and `description || ''`. -/
def normalizeRule (r : RawRule) : SubRule where
  shortName := jsOrStr r.shortName (jsOrStr r.violationReason (strOf "Rule"))
  description := jsOrStr r.description []

/-- `getSubredditInfo`: fetches the current subreddit and its rules from
the external directory and normalizes them; any thrown failure is caught
and turned into `none`.  Note that it takes no store argument: the
source never reads the `subreddit_info:*` cache entry. -/
def getSubredditInfo (dir : Directory) : Option SubredditInfo :=
  match dir.current with
  | .error _ => none
  | .ok sub =>
    match dir.rulesFor with
    | .error _ => none
    | .ok rulesOpt =>
      some {
        name := sub.name
        displayName := jsOrStr sub.displayName sub.name
        description := sub.description
        subscribers := sub.subscribers
        rules := some (match rulesOpt with
                       | some rs => rs.map normalizeRule
                       | none => [])
        flairEnabled := sub.userFlairEnabled.getD false
      }

-- ### Answer pools

/-- The 20 generic Magic 8-Ball answers (`GENERIC_ANSWERS`). -/
def GENERIC_ANSWERS : List Str :=
  [strOf "It is certain",
   strOf "Reply hazy, try again",
   strOf "Don\x27t count on it",
   strOf "It is decidedly so",
   strOf "Ask again later",
   strOf "My reply is no",
   strOf "Without a doubt",
   strOf "Better not tell you now",
   strOf "My sources say no",
   strOf "Yes definitely",
   strOf "Cannot predict now",
   strOf "Outlook not so good",
   strOf "You may rely on it",
   strOf "Concentrate and ask again",
   strOf "Very doubtful",
   strOf "As I see it, yes",
   strOf "Most likely",
   strOf "Outlook good",
   strOf "Yes",
   strOf "Signs point to yes"]

/-- A phrase template `pre ++ name ++ post`. -/
def tpl (pre : String) (name : Str) (post : String) : Str :=
  strOf pre ++ (name ++ strOf post)

/-- The 30 fixed community phrase templates of
`generateCommunityAnswers` (the initial `communityAnswers` array). -/
def communityTemplates (name : Str) : List Str :=
  [tpl "The mods of r/" name " say yes",
   tpl "According to r/" name " rules, absolutely",
   tpl "The r/" name " community believes so",
   tpl "Ask the r/" name " daily thread",
   tpl "Check the r/" name " wiki first",
   tpl "The r/" name " hivemind says no",
   tpl "Post it in r/" name " and find out",
   tpl "The r/" name " automod says maybe",
   tpl "r/" name " veterans would agree",
   tpl "That\x27s against r/" name " guidelines",
   tpl "r/" name " would upvote this",
   tpl "The r/" name " FAQ has your answer",
   tpl "Ask r/" name " in the weekly thread",
   tpl "r/" name " mods are watching...",
   tpl "The spirit of r/" name " says yes",
   tpl "The r/" name " oracle has spoken: Yes!",
   tpl "r/" name "\x27s collective wisdom says no",
   tpl "The ancient scrolls of r/" name " confirm it",
   tpl "r/" name "\x27s magic 8-ball network agrees",
   tpl "The r/" name " prophecy foretells: Maybe",
   tpl "r/" name "\x27s crystal ball is cloudy...",
   tpl "The r/" name " fortune cookies say yes",
   tpl "r/" name "\x27s tarot cards reveal: No",
   tpl "The r/" name " tea leaves suggest: Definitely",
   tpl "r/" name "\x27s cosmic energy says: Ask again",
   tpl "The r/" name " universe aligns: Absolutely",
   tpl "r/" name "\x27s mystical forces say: Doubtful",
   tpl "The r/" name " spirits whisper: Yes",
   tpl "r/" name "\x27s digital divination: Unclear",
   tpl "The r/" name " algorithm predicts: Likely"]

/-- `With ${k}k members, r/${name} says yes` (first `> 100000` bonus). -/
def bonusHigh1 (name : Str) (k : Nat) : Str :=
  strOf "With " ++ (natToDigits k ++ (strOf "k members, r/" ++ (name ++ strOf " says yes")))

/-- `${k}k r/${name} users can't be wrong` (second `> 100000` bonus). -/
def bonusHigh2 (name : Str) (k : Nat) : Str :=
  natToDigits k ++ (strOf "k r/" ++ (name ++ strOf " users can\x27t be wrong"))

/-- `All ${k}k r/${name} members agree` (the `> 1000` bonus). -/
def bonusMid (name : Str) (k : Nat) : Str :=
  strOf "All " ++ (natToDigits k ++ (strOf "k r/" ++ (name ++ strOf " members agree")))

/-- The subscriber-count bonus phrases: `if (subscribers) { if
(subscribers > 100000) ... else if (subscribers > 1000) ... }` with
`Math.floor(subscribers/1000)` in the interpolations (`0` is falsy). -/
def subsBonus (name : Str) (subscribers : Option Nat) : List Str :=
  match subscribers with
  | none => []
  | some s =>
    if s = 0 then []
    else if s > 100000 then
      [bonusHigh1 name (s / 1000), bonusHigh2 name (s / 1000)]
    else if s > 1000 then
      [bonusMid name (s / 1000)]
    else []

/-- `Check rule ${Math.floor(Math.random() * rules.length) + 1} of r/${name}`. -/
def checkRulePhrase (name : Str) (idx : Nat) : Str :=
  strOf "Check rule " ++ (natToDigits idx ++ (strOf " of r/" ++ name))

/-- The rule-based bonus phrases: `if (rules && rules.length > 0)` push
the pseudo-random `Check rule …` phrase and the fixed `… rules are clear
on this` phrase; the `Math.random()` draw is injected as `num/den`. -/
def rulesBonus (name : Str) (rules : Option (List SubRule)) (num den : Nat) : List Str :=
  match rules with
  | none => []
  | some rs =>
    if rs.length > 0 then
      [checkRulePhrase name (jsRandFloor num den rs.length + 1),
       tpl "The r/" name " rules are clear on this"]
    else []

/-- `generateCommunityAnswers`: the 30 templates, then the conditional
subscriber bonuses, then the conditional rule bonuses (in push order),
then the first 5 generic answers (`GENERIC_ANSWERS.slice(0, 5)`). -/
def generateCommunityAnswers (info : SubredditInfo) (num den : Nat) : List Str :=
  communityTemplates info.name
    ++ subsBonus info.name info.subscribers
    ++ rulesBonus info.name info.rules num den
    ++ GENERIC_ANSWERS.take 5

/-- The pool the `/api/ask` handler draws from: `GENERIC_ANSWERS`
unless metadata was resolved, in which case the community pool. -/
def poolFor (info : Option SubredditInfo) (num den : Nat) : List Str :=
  match info with
  | none => GENERIC_ANSWERS
  | some i => generateCommunityAnswers i num den

-- ### The key-value store

/-- A stored Redis value.  `JSON.stringify`/`JSON.parse` are modelled
structurally: `ansRec` is the encoded `{question, answer, subreddit}`
object written under an `answer:*` key, `subInfo` the encoded metadata
cache entry, and `str` a plain string (the raw trimmed question text). -/
inductive RVal
  | str (s : Str)
  | ansRec (question : Str) (answer : Str) (subreddit : Option Str)
  | subInfo (i : SubredditInfo)
deriving DecidableEq, Repr

/-- `SET` on an association list: update the first occurrence in place,
append when the key is new. -/
def setEntries : List (Str × RVal) → Str → RVal → List (Str × RVal)
  | [], k, v => [(k, v)]
  | e :: es, k, v => if e.1 = k then (k, v) :: es else e :: setEntries es k v

/-- The Redis keyspace, in insertion order. -/
structure RedisState where
  entries : List (Str × RVal)
deriving DecidableEq, Repr

/-- `redis.set`. -/
def rset (st : RedisState) (k : Str) (v : RVal) : RedisState :=
  ⟨setEntries st.entries k v⟩

/-- `redis.get`. -/
def rget (st : RedisState) (k : Str) : Option RVal :=
  (st.entries.find? (fun e => e.1 == k)).map (·.2)

/-- `redis.keys(pattern)`: the stored keys matching the glob, in store
order. -/
def rkeys (st : RedisState) (pattern : Str) : List Str :=
  (st.entries.map Prod.fst).filter (fun k => globMatch pattern k)

-- ### Key construction (string templates of the handlers)

/-- `question:${postId}:${userId}:${Date.now()}`. -/
def questionKey (postId userId : Str) (now : Nat) : Str :=
  strOf "question:" ++ (postId ++ (strOf ":" ++ (userId ++ (strOf ":" ++ natToDigits now))))

/-- `answer:${postId}:${userId}:${Date.now()}`. -/
def answerKey (postId userId : Str) (now : Nat) : Str :=
  strOf "answer:" ++ (postId ++ (strOf ":" ++ (userId ++ (strOf ":" ++ natToDigits now))))

/-- `subreddit_info:${subredditInfo.name}`. -/
def subredditKey (name : Str) : Str := strOf "subreddit_info:" ++ name

/-- `answer:${postId}:${userId}:*`, the `/api/history` scan pattern. -/
def answerScanGlob (postId userId : Str) : Str :=
  strOf "answer:" ++ (postId ++ (strOf ":" ++ (userId ++ strOf ":*")))

-- ### The `/api/ask` handler

/-- Per-request environment: the external directory, the two
`Date.now()` readings, one exact rational draw per `Math.random()` call
site, and a success flag per fallible store operation. -/
structure AskEnv where
  dir : Directory
  now1 : Nat
  now2 : Nat
  ansNum : Nat
  ansDen : Nat
  ruleNum : Nat
  ruleDen : Nat
  confNum : Nat
  confDen : Nat
  mystNum : Nat
  mystDen : Nat
  subSetOk : Bool
  subExpireOk : Bool
  qSetOk : Bool
  qExpireOk : Bool
  aSetOk : Bool
  aExpireOk : Bool

/-- The `/api/ask` response: a 400 rejection, a 200 success payload, or
a 500 internal error. -/
inductive AskOutcome
  | badRequest (msg : Str)
  | ok (answer : Str) (subreddit : Option Str) (animation : Str)
       (confidence : Nat) (mysticalLevel : Nat)
  | internalError (msg : Str)
deriving DecidableEq, Repr

/-- Message of the catch-all 500 of `/api/ask`. -/
def internalErrorMsg : Str :=
  strOf "Internal server error while consulting the Magic 8-Ball"

/-- Message of the in-line 500 behind the `!answer` guard. -/
def failedAnswerMsg : Str := strOf "Failed to get answer"

/-- A fallible `redis.set`: on failure the exception propagates to the
handler's `catch`, carrying the store as mutated so far. -/
def opSet (ok : Bool) (st : RedisState) (k : Str) (v : RVal) :
    Except RedisState RedisState :=
  if ok then .ok (rset st k v) else .error st

/-- A fallible `redis.expire` (the TTL itself is outside the time scope
modelled here, so only the possible failure is kept). -/
def opExpire (ok : Bool) (st : RedisState) : Except RedisState RedisState :=
  if ok then .ok st else .error st

/-- The `/api/ask` handler: validation, metadata enrichment, cache
write, question write, uniform draw, `!answer` guard, answer write,
success payload; any store failure inside the `try` block yields the
catch-all 500. -/
def askHandler (env : AskEnv) (postId userId : Option Str) (question : Str)
    (st : RedisState) : AskOutcome × RedisState :=
  match postId with
  | none => (.badRequest (strOf "postId is required"), st)
  | some p =>
    match userId with
    | none => (.badRequest (strOf "Must be logged in"), st)
    | some u =>
      if question = [] || jsTrim question = [] then
        (.badRequest (strOf "Question is required"), st)
      else
        let subredditInfo := getSubredditInfo env.dir
        let availableAnswers := poolFor subredditInfo env.ruleNum env.ruleDen
        let cacheStep : Except RedisState RedisState :=
          match subredditInfo with
          | some i =>
            match opSet env.subSetOk st (subredditKey i.name) (.subInfo i) with
            | .error s => .error s
            | .ok st1 => opExpire env.subExpireOk st1
          | none => .ok st
        match cacheStep with
        | .error st1 => (.internalError internalErrorMsg, st1)
        | .ok st1 =>
          match (match opSet env.qSetOk st1 (questionKey p u env.now1)
                    (.str (jsTrim question)) with
                 | .error s => .error s
                 | .ok st2 => opExpire env.qExpireOk st2 : Except RedisState RedisState) with
          | .error st2 => (.internalError internalErrorMsg, st2)
          | .ok st2 =>
            let randomIndex := jsRandFloor env.ansNum env.ansDen availableAnswers.length
            match availableAnswers[randomIndex]? with
            | none => (.internalError failedAnswerMsg, st2)
            | some answer =>
              if answer = [] then (.internalError failedAnswerMsg, st2)
              else
                match (match opSet env.aSetOk st2 (answerKey p u env.now2)
                          (.ansRec (jsTrim question) answer (subredditInfo.map SubredditInfo.name)) with
                       | .error s => .error s
                       | .ok st3 => opExpire env.aExpireOk st3 : Except RedisState RedisState) with
                | .error st3 => (.internalError internalErrorMsg, st3)
                | .ok st3 =>
                  (.ok answer (subredditInfo.map SubredditInfo.name) (strOf "reveal")
                     (jsRandFloor env.confNum env.confDen 100 + 1)
                     (jsRandFloor env.mystNum env.mystDen 5 + 1), st3)

-- ### The `/api/history` handler

/-- One entry of the history response. -/
structure HEntry where
  question : Str
  answer : Str
  timestamp : Nat
deriving DecidableEq, Repr

/-- `parseInt(key.split(':').pop() || '0')`. -/
def tsOfKey (k : Str) : Nat :=
  let seg := ((splitOnChar ':' k).getLast?).getD []
  jsParseInt (if seg = [] then strOf "0" else seg)

/-- `JSON.parse(data)` followed by the `.question`/`.answer` reads, on
the structured value model: only an encoded answer record decodes. -/
def decodeAnswerRec : RVal → Option (Str × Str)
  | .ansRec q a _ => some (q, a)
  | _ => none

/-- `keys.slice(-10)`: the last `min(10, length)` elements. -/
def lastTen (l : List Str) : List Str := l.drop (l.length - 10)

/-- The scan loop of `/api/history`: for each key, `get` it, decode it,
and push `{question, answer, timestamp}`; absent values are skipped. -/
def scanEntries (st : RedisState) (keys : List Str) : List HEntry :=
  keys.foldl (fun acc key =>
    match rget st key with
    | none => acc
    | some v =>
      match decodeAnswerRec v with
      | none => acc
      | some qa => acc ++ [⟨qa.1, qa.2, tsOfKey key⟩]) []

/-- The sort order of `history.sort((a, b) => b.timestamp - a.timestamp)`:
newest first. -/
def newerFirst (a b : HEntry) : Prop := b.timestamp ≤ a.timestamp

instance : DecidableRel newerFirst := fun a b => Nat.decLe b.timestamp a.timestamp

instance : IsTotal HEntry newerFirst := ⟨fun a b => Nat.le_total b.timestamp a.timestamp⟩

instance : IsTrans HEntry newerFirst := ⟨fun _ _ _ h1 h2 => Nat.le_trans h2 h1⟩

/-- `history.sort((a, b) => b.timestamp - a.timestamp)`.  ECMAScript
requires `Array.prototype.sort` to be stable, which (for this total
preorder) determines its output uniquely; a stable insertion sort
realises it. -/
def sortNewestFirst (l : List HEntry) : List HEntry := List.insertionSort newerFirst l

/-- The history list computed by `/api/history` for a valid request:
scan the pattern, keep the last 10 keys, decode, sort newest first. -/
def historyList (st : RedisState) (postId userId : Str) : List HEntry :=
  sortNewestFirst (scanEntries st (lastTen (rkeys st (answerScanGlob postId userId))))

/-- The `/api/history` response (its 500 branch needs a store-read
failure, which the pure store model cannot produce, so it is absent). -/
inductive HistoryOutcome
  | badRequest (msg : Str)
  | ok (history : List HEntry)
deriving DecidableEq, Repr

/-- The `/api/history` handler. -/
def historyHandler (st : RedisState) (postId userId : Option Str) : HistoryOutcome :=
  match postId with
  | none => .badRequest (strOf "postId is required")
  | some _p =>
    match userId with
    | none => .badRequest (strOf "Must be logged in")
    | some _u => .ok (historyList st _p _u)

/-- Spec-side comparison list for the history claims: the decoded
entries of ALL `answer:{postId}:{userId}:*` records in the store (no
`slice(-10)` truncation). -/
def allHistoryEntries (st : RedisState) (postId userId : Str) : List HEntry :=
  scanEntries st (rkeys st (answerScanGlob postId userId))

-- ### Pool facts

theorem tpl_ne_nil (pre : String) (name : Str) (post : String)
    (h : strOf pre ≠ []) : tpl pre name post ≠ [] :=
  List.append_ne_nil_of_left_ne_nil h _

theorem mem_communityTemplates_ne_nil (name : Str) :
    ∀ a ∈ communityTemplates name, a ≠ [] := by
  intro a ha
  simp only [communityTemplates, List.mem_cons, List.not_mem_nil, or_false] at ha
  rcases ha with rfl|rfl|rfl|rfl|rfl|rfl|rfl|rfl|rfl|rfl|rfl|rfl|rfl|rfl|rfl|rfl|rfl|rfl|rfl|rfl|rfl|rfl|rfl|rfl|rfl|rfl|rfl|rfl|rfl|rfl <;>
    exact tpl_ne_nil _ _ _ (by decide)

theorem bonusHigh1_ne_nil (name : Str) (k : Nat) : bonusHigh1 name k ≠ [] :=
  List.append_ne_nil_of_left_ne_nil (by decide) _

theorem bonusHigh2_ne_nil (name : Str) (k : Nat) : bonusHigh2 name k ≠ [] :=
  List.append_ne_nil_of_left_ne_nil (natToDigits_ne_nil k) _

theorem bonusMid_ne_nil (name : Str) (k : Nat) : bonusMid name k ≠ [] :=
  List.append_ne_nil_of_left_ne_nil (by decide) _

theorem checkRulePhrase_ne_nil (name : Str) (idx : Nat) : checkRulePhrase name idx ≠ [] :=
  List.append_ne_nil_of_left_ne_nil (by decide) _

theorem mem_subsBonus_ne_nil (name : Str) (subs : Option Nat) :
    ∀ a ∈ subsBonus name subs, a ≠ [] := by
  intro a ha
  rcases subs with _ | s
  · simp [subsBonus] at ha
  · simp only [subsBonus] at ha
    split_ifs at ha
    · simp at ha
    · simp only [List.mem_cons, List.not_mem_nil, or_false] at ha
      rcases ha with rfl | rfl
      · exact bonusHigh1_ne_nil _ _
      · exact bonusHigh2_ne_nil _ _
    · simp only [List.mem_cons, List.not_mem_nil, or_false] at ha
      rcases ha with rfl
      exact bonusMid_ne_nil _ _
    · simp at ha

theorem mem_rulesBonus_ne_nil (name : Str) (rules : Option (List SubRule)) (num den : Nat) :
    ∀ a ∈ rulesBonus name rules num den, a ≠ [] := by
  intro a ha
  rcases rules with _ | rs
  · simp [rulesBonus] at ha
  · simp only [rulesBonus] at ha
    split_ifs at ha
    · simp only [List.mem_cons, List.not_mem_nil, or_false] at ha
      rcases ha with rfl | rfl
      · exact checkRulePhrase_ne_nil _ _
      · exact tpl_ne_nil _ _ _ (by decide)
    · simp at ha

theorem mem_generic_ne_nil : ∀ a ∈ GENERIC_ANSWERS, a ≠ [] := by decide

theorem mem_poolFor_ne_nil (info : Option SubredditInfo) (num den : Nat) :
    ∀ a ∈ poolFor info num den, a ≠ [] := by
  intro a ha
  rcases info with _ | i
  · exact mem_generic_ne_nil a ha
  · unfold poolFor generateCommunityAnswers at ha
    simp only [List.append_assoc] at ha
    rcases List.mem_append.mp ha with h | h
    · exact mem_communityTemplates_ne_nil _ a h
    · rcases List.mem_append.mp h with h | h
      · exact mem_subsBonus_ne_nil _ _ a h
      · rcases List.mem_append.mp h with h | h
        · exact mem_rulesBonus_ne_nil _ _ _ _ a h
        · exact mem_generic_ne_nil a (List.mem_of_mem_take h)

theorem poolFor_ne_nil (info : Option SubredditInfo) (num den : Nat) :
    poolFor info num den ≠ [] := by
  rcases info with _ | i
  · exact (by decide : GENERIC_ANSWERS ≠ [])
  · unfold poolFor generateCommunityAnswers
    simp only [List.append_assoc]
    intro h
    rw [List.append_eq_nil] at h
    exact absurd h.1 (by unfold communityTemplates; simp)

theorem poolFor_length_pos (info : Option SubredditInfo) (num den : Nat) :
    0 < (poolFor info num den).length :=
  List.length_pos.mpr (poolFor_ne_nil info num den)

-- ### Store facts

theorem find?_setEntries_self (l : List (Str × RVal)) (k : Str) (v : RVal) :
    (setEntries l k v).find? (fun e => e.1 == k) = some (k, v) := by
  induction l with
  | nil => simp [setEntries]
  | cons e es ih =>
    by_cases h : e.1 = k
    · simp [setEntries, h]
    · simp [setEntries, h, List.find?_cons_of_neg, ih]

theorem rget_rset_self (st : RedisState) (k : Str) (v : RVal) :
    rget (rset st k v) k = some v := by
  unfold rget rset
  rw [find?_setEntries_self]
  rfl

theorem find?_setEntries_ne (l : List (Str × RVal)) (k k' : Str) (v : RVal)
    (h : k' ≠ k) :
    (setEntries l k v).find? (fun e => e.1 == k') = l.find? (fun e => e.1 == k') := by
  have hbeq : (k == k') = false := by simpa using Ne.symm h
  induction l with
  | nil => simp [setEntries, List.find?, hbeq]
  | cons e es ih =>
    by_cases he : e.1 = k
    · simp only [setEntries, if_pos he, List.find?]
      rw [he, hbeq]
    · simp only [setEntries, if_neg he, List.find?]
      cases hpe : (e.1 == k') <;> simp [ih]

theorem rget_rset_ne (st : RedisState) (k k' : Str) (v : RVal) (h : k' ≠ k) :
    rget (rset st k v) k' = rget st k' := by
  unfold rget rset
  rw [find?_setEntries_ne _ _ _ _ h]

theorem setEntries_of_not_mem (l : List (Str × RVal)) (k : Str) (v : RVal)
    (h : k ∉ l.map Prod.fst) : setEntries l k v = l ++ [(k, v)] := by
  induction l with
  | nil => rfl
  | cons e es ih =>
    simp only [List.map_cons, List.mem_cons] at h
    push_neg at h
    simp [setEntries, Ne.symm h.1, ih h.2]

theorem rkeys_rset_fresh (st : RedisState) (k : Str) (v : RVal) (pat : Str)
    (hfresh : k ∉ st.entries.map Prod.fst) (hmatch : globMatch pat k = true) :
    rkeys (rset st k v) pat = rkeys st pat ++ [k] := by
  unfold rkeys rset
  rw [setEntries_of_not_mem _ _ _ hfresh, List.map_append, List.filter_append]
  simp [hmatch]

-- ### Glob matching facts

theorem globMatchAux_star (rest : Str) : ∀ fuel, rest.length + 2 ≤ fuel →
    globMatchAux fuel ['*'] rest = true := by
  induction rest with
  | nil =>
    intro fuel h
    obtain ⟨f, rfl⟩ : ∃ f, fuel = f + 2 := ⟨fuel - 2, by omega⟩
    simp [globMatchAux]
  | cons c cs ih =>
    intro fuel h
    obtain ⟨f, rfl⟩ : ∃ f, fuel = f + 1 := ⟨fuel - 1, by omega⟩
    have hc : globMatchAux f ['*'] cs = true := by
      apply ih
      simp only [List.length_cons] at h
      omega
    simp [globMatchAux, hc]

theorem globMatchAux_prefix (pre : Str) : ∀ (fuel : Nat) (rest : Str), '*' ∉ pre →
    pre.length + pre.length + rest.length + 2 ≤ fuel →
    globMatchAux fuel (pre ++ ['*']) (pre ++ rest) = true := by
  induction pre with
  | nil =>
    intro fuel rest _ h
    simpa using globMatchAux_star rest fuel (by simp at h; omega)
  | cons c cs ih =>
    intro fuel rest hstar h
    obtain ⟨f, rfl⟩ : ∃ f, fuel = f + 1 := ⟨fuel - 1, by omega⟩
    simp only [List.mem_cons, not_or] at hstar
    have hc : ¬(c = '*') := fun hh => hstar.1 hh.symm
    have hrec : globMatchAux f (cs ++ ['*']) (cs ++ rest) = true := by
      apply ih f rest hstar.2
      simp only [List.length_cons] at h
      omega
    simp [globMatchAux, hc, hrec]

theorem globMatch_prefix_star (pre rest : Str) (h : '*' ∉ pre) :
    globMatch (pre ++ ['*']) (pre ++ rest) = true := by
  unfold globMatch
  apply globMatchAux_prefix pre _ rest h
  simp [List.length_append]
  omega

theorem answerScanGlob_eq (p u : Str) :
    answerScanGlob p u =
      (strOf "answer:" ++ (p ++ (strOf ":" ++ (u ++ strOf ":")))) ++ ['*'] := by
  unfold answerScanGlob
  have h : strOf ":*" = strOf ":" ++ ['*'] := by decide
  rw [h]
  simp [List.append_assoc]

theorem answerKey_eq (p u : Str) (t : Nat) :
    answerKey p u t =
      (strOf "answer:" ++ (p ++ (strOf ":" ++ (u ++ strOf ":")))) ++ natToDigits t := by
  unfold answerKey
  simp [List.append_assoc]

theorem globMatch_answerKey (p u : Str) (t : Nat) (hp : '*' ∉ p) (hu : '*' ∉ u) :
    globMatch (answerScanGlob p u) (answerKey p u t) = true := by
  rw [answerScanGlob_eq, answerKey_eq]
  apply globMatch_prefix_star
  intro hmem
  simp only [List.mem_append] at hmem
  rcases hmem with hmem | hmem | hmem | hmem | hmem
  · exact absurd hmem (by decide)
  · exact hp hmem
  · exact absurd hmem (by decide)
  · exact hu hmem
  · exact absurd hmem (by decide)

-- ### Split and timestamp-extraction facts

theorem splitOnChar_ne_nil (sep : Char) (l : Str) : splitOnChar sep l ≠ [] := by
  cases l with
  | nil => simp [splitOnChar]
  | cons c cs =>
    by_cases h : c = sep
    · simp [splitOnChar, h]
    · rcases hs : splitOnChar sep cs with _ | ⟨g, gs⟩ <;> simp [splitOnChar, h, hs]

theorem getLast?_cons_of_ne_nil {α : Type} (x : α) {l : List α} (h : l ≠ []) :
    (x :: l).getLast? = l.getLast? := by
  cases l with
  | nil => exact absurd rfl h
  | cons y ys => rfl

theorem two_le_splitOnChar_length (sep : Char) (xs ys : Str) :
    2 ≤ (splitOnChar sep (xs ++ sep :: ys)).length := by
  induction xs with
  | nil =>
    have h0 : 0 < (splitOnChar sep ys).length :=
      List.length_pos.mpr (splitOnChar_ne_nil sep ys)
    simp [splitOnChar]
    omega
  | cons c cs ih =>
    by_cases h : c = sep
    · simp only [List.cons_append, splitOnChar, if_pos h, List.length_cons,
        List.append_eq]
      have h0 : 0 < (splitOnChar sep (cs ++ sep :: ys)).length :=
        List.length_pos.mpr (splitOnChar_ne_nil sep _)
      omega
    · simp only [List.cons_append, splitOnChar, if_neg h, List.append_eq]
      rcases hs : splitOnChar sep (cs ++ sep :: ys) with _ | ⟨g, gs⟩
      · exact absurd hs (splitOnChar_ne_nil sep _)
      · rw [hs] at ih
        simp only [List.length_cons] at ih ⊢
        omega

theorem getLast?_splitOnChar_append (sep : Char) (xs ys : Str) :
    (splitOnChar sep (xs ++ sep :: ys)).getLast? = (splitOnChar sep ys).getLast? := by
  induction xs with
  | nil =>
    simp only [List.nil_append, splitOnChar, if_pos rfl]
    exact getLast?_cons_of_ne_nil _ (splitOnChar_ne_nil sep ys)
  | cons c cs ih =>
    by_cases h : c = sep
    · simp only [List.cons_append, splitOnChar, if_pos h, List.append_eq]
      rw [getLast?_cons_of_ne_nil _ (splitOnChar_ne_nil sep _)]
      exact ih
    · simp only [List.cons_append, splitOnChar, if_neg h, List.append_eq]
      rcases hs : splitOnChar sep (cs ++ sep :: ys) with _ | ⟨g, gs⟩
      · exact absurd hs (splitOnChar_ne_nil sep _)
      · have h2 := two_le_splitOnChar_length sep cs ys
        rw [hs] at h2
        rcases gs with _ | ⟨g2, gs2⟩
        · simp at h2
        · have h3 : (g :: g2 :: gs2 : List Str).getLast? = (splitOnChar sep ys).getLast? := by
            rw [← hs]; exact ih
          rw [getLast?_cons_of_ne_nil _ (by simp), ← h3]
          exact (getLast?_cons_of_ne_nil g (by simp)).symm

theorem splitOnChar_of_not_mem (sep : Char) (l : Str) (h : sep ∉ l) :
    splitOnChar sep l = [l] := by
  induction l with
  | nil => rfl
  | cons c cs ih =>
    simp only [List.mem_cons, not_or] at h
    have hc : ¬(c = sep) := fun hh => h.1 hh.symm
    simp [splitOnChar, hc, ih h.2]

theorem colon_not_mem_natToDigits (t : Nat) : ':' ∉ natToDigits t := by
  intro hmem
  have := natToDigits_all_digits t ':' hmem
  exact absurd this (by decide)

/-- On a well-formed answer key, the handler's
`parseInt(key.split(':').pop() || '0')` recovers the timestamp. -/
theorem tsOfKey_answerKey (p u : Str) (t : Nat) :
    tsOfKey (answerKey p u t) = t := by
  have hkey : answerKey p u t
      = (strOf "answer:" ++ (p ++ (strOf ":" ++ u))) ++ ':' :: natToDigits t := by
    unfold answerKey
    have h : strOf ":" = [':'] := by decide
    simp [h, List.append_assoc]
  unfold tsOfKey
  rw [hkey, getLast?_splitOnChar_append,
    splitOnChar_of_not_mem ':' _ (colon_not_mem_natToDigits t)]
  simp only [List.getLast?_singleton, Option.getD_some]
  rw [if_neg (natToDigits_ne_nil t)]
  unfold jsParseInt
  rw [List.takeWhile_eq_self_iff.mpr (natToDigits_all_digits t)]
  exact natOfDigits_natToDigits t

-- ### Scan-loop facts

/-- Proof-side view of one step of the `/api/history` scan: the 0-or-1
entries contributed by one key. -/
def entryFor (st : RedisState) (key : Str) : List HEntry :=
  match rget st key with
  | none => []
  | some v =>
    match decodeAnswerRec v with
    | none => []
    | some qa => [⟨qa.1, qa.2, tsOfKey key⟩]

theorem scanFold_eq (st : RedisState) (keys : List Str) (acc : List HEntry) :
    List.foldl (fun acc key =>
      match rget st key with
      | none => acc
      | some v =>
        match decodeAnswerRec v with
        | none => acc
        | some qa => acc ++ [⟨qa.1, qa.2, tsOfKey key⟩]) acc keys
    = acc ++ (keys.map (entryFor st)).flatten := by
  induction keys generalizing acc with
  | nil => simp
  | cons k ks ih =>
    rw [List.foldl_cons, ih]
    cases hv : rget st k with
    | none => simp [entryFor, hv]
    | some v =>
      cases hd : decodeAnswerRec v with
      | none => simp [entryFor, hv, hd]
      | some qa => simp [entryFor, hv, hd]

theorem scanEntries_eq_flatten (st : RedisState) (keys : List Str) :
    scanEntries st keys = (keys.map (entryFor st)).flatten := by
  unfold scanEntries
  simpa using scanFold_eq st keys []

theorem entryFor_length_le (st : RedisState) (k : Str) :
    (entryFor st k).length ≤ 1 := by
  unfold entryFor
  cases hv : rget st k with
  | none => simp
  | some v => rcases hd : decodeAnswerRec v with _ | qa <;> simp [hd]

theorem scanEntries_length_le (st : RedisState) (keys : List Str) :
    (scanEntries st keys).length ≤ keys.length := by
  rw [scanEntries_eq_flatten]
  induction keys with
  | nil => simp
  | cons k ks ih =>
    simp only [List.map_cons, List.flatten_cons, List.length_append, List.length_cons]
    have := entryFor_length_le st k
    omega

theorem mem_scanEntries_of_entryFor (st : RedisState) (keys : List Str) (k : Str)
    (e : HEntry) (hk : k ∈ keys) (he : e ∈ entryFor st k) :
    e ∈ scanEntries st keys := by
  rw [scanEntries_eq_flatten]
  exact List.mem_flatten.mpr ⟨entryFor st k, List.mem_map_of_mem _ hk, he⟩

-- ### `slice(-10)` facts

theorem lastTen_length_le (l : List Str) : (lastTen l).length ≤ 10 := by
  simp only [lastTen, List.length_drop]
  omega

theorem lastTen_of_length_le (l : List Str) (h : l.length ≤ 10) : lastTen l = l := by
  unfold lastTen
  rw [Nat.sub_eq_zero_of_le h, List.drop_zero]

theorem mem_lastTen_concat (l : List Str) (x : Str) : x ∈ lastTen (l ++ [x]) := by
  unfold lastTen
  have hle : (l ++ [x]).length - 10 ≤ l.length := by
    simp [List.length_append]
  rw [List.drop_append_of_le_length hle]
  simp

-- ### Sorting facts

theorem sortNewestFirst_perm (l : List HEntry) : (sortNewestFirst l).Perm l :=
  List.perm_insertionSort newerFirst l

theorem sortNewestFirst_sorted (l : List HEntry) :
    List.Sorted newerFirst (sortNewestFirst l) :=
  List.sorted_insertionSort newerFirst l

theorem sortNewestFirst_length (l : List HEntry) :
    (sortNewestFirst l).length = l.length :=
  (sortNewestFirst_perm l).length_eq

theorem mem_sortNewestFirst (l : List HEntry) (e : HEntry) (h : e ∈ l) :
    e ∈ sortNewestFirst l :=
  (sortNewestFirst_perm l).mem_iff.mpr h

-- ### Phrase-distinctness facts for the subscriber bonuses

theorem bonusMid_ne_bonusHigh1 (name name2 : Str) (k k2 : Nat) :
    bonusMid name k ≠ bonusHigh1 name2 k2 := by
  intro h
  have hAll : strOf "All " = 'A' :: strOf "ll " := by decide
  have hWith : strOf "With " = 'W' :: strOf "ith " := by decide
  unfold bonusMid bonusHigh1 at h
  rw [hAll, hWith, List.cons_append, List.cons_append] at h
  injection h with h1 _
  exact absurd h1 (by decide)

theorem bonusMid_ne_bonusHigh2 (name name2 : Str) (k k2 : Nat) :
    bonusMid name k ≠ bonusHigh2 name2 k2 := by
  intro h
  have hAll : strOf "All " = 'A' :: strOf "ll " := by decide
  obtain ⟨c, cs, heq, hdig⟩ := natToDigits_head_digit k2
  unfold bonusMid bonusHigh2 at h
  rw [hAll, List.cons_append, heq, List.cons_append] at h
  injection h with h1 _
  rw [← h1] at hdig
  exact absurd hdig (by decide)

/-- C5: pool building is boundary-correct at the fixed subscriber
thresholds.  With `subscriber_count = 1000` the pool is identical to the
bonus-free pool; with `1000 < s ≤ 100000` exactly the single
`All ⌊s/1000⌋k … members agree` phrase is added; with `s > 100000`
exactly the two `⌊s/1000⌋k`-referencing phrases are added and the lower
bonus phrase is not among them. -/
theorem subscriber_thresholds_boundary_correct
    (name dName : Str) (desc : Option Str) (rules : Option (List SubRule))
    (flair : Bool) (num den : Nat) (s : Nat) :
    (generateCommunityAnswers ⟨name, dName, desc, some 1000, rules, flair⟩ num den
       = generateCommunityAnswers ⟨name, dName, desc, none, rules, flair⟩ num den)
    ∧ (1000 < s → s ≤ 100000 →
        generateCommunityAnswers ⟨name, dName, desc, some s, rules, flair⟩ num den
          = communityTemplates name ++ [bonusMid name (s / 1000)]
              ++ rulesBonus name rules num den ++ GENERIC_ANSWERS.take 5)
    ∧ (100000 < s →
        generateCommunityAnswers ⟨name, dName, desc, some s, rules, flair⟩ num den
          = communityTemplates name
              ++ [bonusHigh1 name (s / 1000), bonusHigh2 name (s / 1000)]
              ++ rulesBonus name rules num den ++ GENERIC_ANSWERS.take 5
        ∧ bonusMid name (s / 1000)
            ∉ [bonusHigh1 name (s / 1000), bonusHigh2 name (s / 1000)]) := by
  refine ⟨?_, ?_, ?_⟩
  · simp [generateCommunityAnswers, subsBonus]
  · intro h1 h2
    have hs0 : ¬(s = 0) := by omega
    have hsh : ¬(s > 100000) := by omega
    have hsm : s > 1000 := h1
    simp [generateCommunityAnswers, subsBonus, hs0, hsh, hsm]
  · intro h1
    have hs0 : ¬(s = 0) := by omega
    refine ⟨by simp [generateCommunityAnswers, subsBonus, hs0, h1], ?_⟩
    simp only [List.mem_cons, List.not_mem_nil, or_false]
    push_neg
    exact ⟨bonusMid_ne_bonusHigh1 name name _ _, bonusMid_ne_bonusHigh2 name name _ _⟩

/-- Witness for C5 at `s = 1001`. -/
theorem subscriber_thresholds_boundary_correct_witness :
    1000 < 1001 ∧ 1001 ≤ 100000 ∧
    generateCommunityAnswers ⟨strOf "x", strOf "x", none, some 1001, none, false⟩ 0 1
      = communityTemplates (strOf "x") ++ [bonusMid (strOf "x") 1]
          ++ rulesBonus (strOf "x") none 0 1 ++ GENERIC_ANSWERS.take 5 :=
  ⟨by decide, by decide,
   (subscriber_thresholds_boundary_correct (strOf "x") (strOf "x") none none false
      0 1 1001).2.1 (by decide) (by decide)⟩

/-- C8: pool building is deterministic: identical metadata snapshots and
identical pseudo-random inputs produce identical ordered pools, and with
absent metadata the pool is the same fixed ordered sequence regardless
of the pseudo-random input. -/
theorem pool_building_deterministic (m1 m2 : Option SubredditInfo)
    (num1 den1 num2 den2 : Nat) :
    (m1 = m2 → num1 = num2 → den1 = den2 →
      poolFor m1 num1 den1 = poolFor m2 num2 den2)
    ∧ poolFor none num1 den1 = poolFor none num2 den2 := by
  constructor
  · rintro rfl rfl rfl
    rfl
  · rfl

/-- Witness for C8. -/
theorem pool_building_deterministic_witness :
    poolFor (some ⟨strOf "x", strOf "x", none, none, none, false⟩) 1 2
      = poolFor (some ⟨strOf "x", strOf "x", none, none, none, false⟩) 1 2 :=
  (pool_building_deterministic (some ⟨strOf "x", strOf "x", none, none, none, false⟩)
    (some ⟨strOf "x", strOf "x", none, none, none, false⟩) 1 2 1 2).1 rfl rfl rfl

-- ### Handler-level facts and claims

/-- `true` exactly on the 200-success constructor. -/
def AskOutcome.isOk : AskOutcome → Bool
  | .ok _ _ _ _ _ => true
  | _ => false

/-- Inversion of a 200 success of `/api/ask`: the answer is the element
of the pool at the drawn index, and the reported subreddit is the
directory-derived name. -/
theorem ask_ok_inv (env : AskEnv) (p u question : Str) (st : RedisState)
    (a : Str) (sub : Option Str) (anim : Str) (conf myst : Nat)
    (h : (askHandler env (some p) (some u) question st).1 = .ok a sub anim conf myst) :
    (poolFor (getSubredditInfo env.dir) env.ruleNum env.ruleDen)[jsRandFloor
        env.ansNum env.ansDen
        (poolFor (getSubredditInfo env.dir) env.ruleNum env.ruleDen).length]? = some a
    ∧ sub = (getSubredditInfo env.dir).map SubredditInfo.name := by
  simp only [askHandler] at h
  repeat' split at h
  all_goals simp_all

/-- C7: every answer string returned with success by `/api/ask` is a
member of the pool built from the same metadata snapshot (the generic
pool when metadata is absent, the community-augmented pool otherwise). -/
theorem ask_answer_mem_pool (env : AskEnv) (p u question : Str) (st : RedisState)
    (a : Str) (sub : Option Str) (anim : Str) (conf myst : Nat)
    (h : (askHandler env (some p) (some u) question st).1 = .ok a sub anim conf myst) :
    a ∈ poolFor (getSubredditInfo env.dir) env.ruleNum env.ruleDen :=
  List.getElem?_mem (ask_ok_inv env p u question st a sub anim conf myst h).1

/-- The directory used by the witness environments: resolves `r/fresh`
with no rules. -/
def dirFresh : Directory := ⟨.ok ⟨strOf "fresh", none, none, none, none⟩, .ok none⟩

/-- The normalization of `dirFresh`. -/
def infoFresh : SubredditInfo := ⟨strOf "fresh", strOf "fresh", none, none, some [], false⟩

/-- A cache entry for `r/fresh` whose contents differ from what the
directory returns. -/
def cachedFresh : SubredditInfo := ⟨strOf "fresh", strOf "Stale", none, some 5, some [], false⟩

/-- A store holding a fresh metadata cache entry for `r/fresh`. -/
def stWithCache : RedisState := ⟨[(subredditKey (strOf "fresh"), .subInfo cachedFresh)]⟩

/-- All-operations-succeed environment over `dirFresh`. -/
def envFresh : AskEnv :=
  ⟨dirFresh, 100, 100, 0, 1, 0, 1, 0, 1, 0, 1, true, true, true, true, true, true⟩

/-- All-operations-succeed environment whose directory calls fail. -/
def envNoDir : AskEnv :=
  ⟨⟨.error (), .error ()⟩, 100, 100, 0, 1, 0, 1, 0, 1, 0, 1, true, true, true, true, true, true⟩

/-- Environment whose question-record write fails. -/
def envQFail : AskEnv :=
  ⟨⟨.error (), .error ()⟩, 100, 100, 0, 1, 0, 1, 0, 1, 0, 1, true, true, false, true, true, true⟩

/-- Witness for C7: a concrete successful request whose answer is in the
generic pool. -/
theorem ask_answer_mem_pool_witness :
    (askHandler envNoDir (some (strOf "p")) (some (strOf "u")) (strOf "hi") ⟨[]⟩).1
      = .ok (strOf "It is certain") none (strOf "reveal") 1 1
    ∧ strOf "It is certain"
        ∈ poolFor (getSubredditInfo envNoDir.dir) envNoDir.ruleNum envNoDir.ruleDen :=
  ⟨by decide,
   ask_answer_mem_pool envNoDir (strOf "p") (strOf "u") (strOf "hi") ⟨[]⟩
     (strOf "It is certain") none (strOf "reveal") 1 1 (by decide)⟩

/-- C10: for any in-range random draw the selection index is a valid
index of the (never empty) pool, so the indexed element is defined and
non-empty and the handler's internal `Failed to get answer` 500 branch
is unreachable. -/
theorem random_index_in_bounds_no_500 (env : AskEnv) (postId userId : Option Str)
    (question : Str) (st : RedisState)
    (hr : env.ansNum < env.ansDen) :
    poolFor (getSubredditInfo env.dir) env.ruleNum env.ruleDen ≠ []
    ∧ jsRandFloor env.ansNum env.ansDen
        (poolFor (getSubredditInfo env.dir) env.ruleNum env.ruleDen).length
      < (poolFor (getSubredditInfo env.dir) env.ruleNum env.ruleDen).length
    ∧ (askHandler env postId userId question st).1 ≠ .internalError failedAnswerMsg := by
  have hne := poolFor_ne_nil (getSubredditInfo env.dir) env.ruleNum env.ruleDen
  have hlt := jsRandFloor_lt env.ansNum env.ansDen
    (poolFor (getSubredditInfo env.dir) env.ruleNum env.ruleDen).length hr
    (poolFor_length_pos (getSubredditInfo env.dir) env.ruleNum env.ruleDen)
  refine ⟨hne, hlt, ?_⟩
  intro hcontra
  simp only [askHandler] at hcontra
  repeat' split at hcontra
  all_goals simp_all [show internalErrorMsg ≠ failedAnswerMsg from by decide]
  exact mem_poolFor_ne_nil _ _ _ _ (List.getElem_mem hlt) (by assumption)

/-- Witness for C10. -/
theorem random_index_in_bounds_no_500_witness :
    0 < 1
    ∧ (poolFor (getSubredditInfo envNoDir.dir) envNoDir.ruleNum envNoDir.ruleDen ≠ []
       ∧ jsRandFloor envNoDir.ansNum envNoDir.ansDen
           (poolFor (getSubredditInfo envNoDir.dir) envNoDir.ruleNum envNoDir.ruleDen).length
         < (poolFor (getSubredditInfo envNoDir.dir) envNoDir.ruleNum envNoDir.ruleDen).length
       ∧ (askHandler envNoDir (some (strOf "p")) (some (strOf "u")) (strOf "hi") ⟨[]⟩).1
           ≠ .internalError failedAnswerMsg) :=
  ⟨by decide,
   random_index_in_bounds_no_500 envNoDir (some (strOf "p")) (some (strOf "u"))
     (strOf "hi") ⟨[]⟩ (by decide)⟩

/-- C2 (amended): a failure of a history-store write (question or
answer record) is caught by the surrounding `try/catch` and produces
the catch-all 500 response; the chosen answer is NOT returned. -/
theorem store_write_failure_blocks_answer (env : AskEnv) (p u question : Str)
    (st : RedisState)
    (hq : jsTrim question ≠ [])
    (hr : env.ansNum < env.ansDen)
    (hfail : env.qSetOk = false ∨ env.aSetOk = false) :
    (askHandler env (some p) (some u) question st).1 = .internalError internalErrorMsg := by
  have hne := poolFor_ne_nil (getSubredditInfo env.dir) env.ruleNum env.ruleDen
  have hlt := jsRandFloor_lt env.ansNum env.ansDen
    (poolFor (getSubredditInfo env.dir) env.ruleNum env.ruleDen).length hr
    (poolFor_length_pos (getSubredditInfo env.dir) env.ruleNum env.ruleDen)
  have hq2 : ¬(question = []) := fun hh => hq (by rw [hh]; rfl)
  simp only [askHandler]
  repeat' split
  all_goals simp_all [opSet, opExpire]
  · rename_i hcache hqstep hidx hans
    exact absurd hidx (mem_poolFor_ne_nil _ _ _ _ (List.getElem_mem hlt))
  · rename_i hcache hqstep hidx hans hastep
    rcases hfail with hf | hf
    · rw [hf] at hqstep
      simp at hqstep
    · rw [hf] at hastep
      simp at hastep

/-- Counterexample for C2 as stated: a valid request whose
question-record write fails receives the 500 catch-all error, not a 200
success with the chosen answer. -/
theorem store_write_failure_counterexample :
    (askHandler envQFail (some (strOf "p")) (some (strOf "u")) (strOf "hi") ⟨[]⟩).1
      = .internalError internalErrorMsg
    ∧ AskOutcome.isOk
        ((askHandler envQFail (some (strOf "p")) (some (strOf "u")) (strOf "hi") ⟨[]⟩).1)
      = false := by decide

/-- Witness for the amended C2. -/
theorem store_write_failure_blocks_answer_witness :
    jsTrim (strOf "hi") ≠ []
    ∧ (askHandler envQFail (some (strOf "p")) (some (strOf "u")) (strOf "hi") ⟨[]⟩).1
        = .internalError internalErrorMsg :=
  ⟨by decide,
   store_write_failure_blocks_answer envQFail (strOf "p") (strOf "u") (strOf "hi") ⟨[]⟩
     (by decide) (by decide) (Or.inl (by decide))⟩

/-- C6: when the external directory call fails, the failure is absorbed
(`getSubredditInfo` returns `none` rather than raising) and a valid
request still succeeds with an answer from the 20 generic phrases and no
subreddit field. -/
theorem directory_failure_absorbed (env : AskEnv) (p u question : Str) (st : RedisState)
    (hdir : env.dir.current = .error ())
    (hq : jsTrim question ≠ [])
    (hr : env.ansNum < env.ansDen)
    (hops : env.subSetOk = true ∧ env.subExpireOk = true ∧ env.qSetOk = true
            ∧ env.qExpireOk = true ∧ env.aSetOk = true ∧ env.aExpireOk = true) :
    getSubredditInfo env.dir = none
    ∧ ∃ a conf myst,
        (askHandler env (some p) (some u) question st).1
          = .ok a none (strOf "reveal") conf myst
        ∧ a ∈ GENERIC_ANSWERS := by
  have hinfo : getSubredditInfo env.dir = none := by
    unfold getSubredditInfo
    rw [hdir]
  obtain ⟨h1, h2, h3, h4, h5, h6⟩ := hops
  have hq2 : ¬(question = []) := fun hh => hq (by rw [hh]; rfl)
  have hlt : jsRandFloor env.ansNum env.ansDen (GENERIC_ANSWERS : List Str).length
      < (GENERIC_ANSWERS : List Str).length :=
    jsRandFloor_lt _ _ _ hr (by decide)
  refine ⟨hinfo, ?_⟩
  rcases hget : (GENERIC_ANSWERS : List Str)[jsRandFloor env.ansNum env.ansDen
      (GENERIC_ANSWERS : List Str).length]? with _ | a
  · exact absurd (List.getElem?_eq_none_iff.mp hget) (by omega)
  · have hmem : a ∈ GENERIC_ANSWERS := List.getElem?_mem hget
    have hane : a ≠ [] := mem_generic_ne_nil a hmem
    refine ⟨a, jsRandFloor env.confNum env.confDen 100 + 1,
      jsRandFloor env.mystNum env.mystDen 5 + 1, ?_, hmem⟩
    simp only [askHandler, hinfo, poolFor, opSet, opExpire, h1, h2, h3, h4, h5, h6]
    simp [hq, hq2, hget, hane]

/-- Witness for C6. -/
theorem directory_failure_absorbed_witness :
    envNoDir.dir.current = .error ()
    ∧ (getSubredditInfo envNoDir.dir = none
       ∧ ∃ a conf myst,
           (askHandler envNoDir (some (strOf "p")) (some (strOf "u")) (strOf "hi") ⟨[]⟩).1
             = .ok a none (strOf "reveal") conf myst
           ∧ a ∈ GENERIC_ANSWERS) :=
  ⟨rfl,
   directory_failure_absorbed envNoDir (strOf "p") (strOf "u") (strOf "hi") ⟨[]⟩
     rfl (by decide) (by decide) ⟨rfl, rfl, rfl, rfl, rfl, rfl⟩⟩

/-- C4 (amended): the metadata used by a request is independent of the
store — `getSubredditInfo` consults only the external directory (it has
no store input at all), so a fresh cache entry changes neither the
reported subreddit nor the chosen answer, and the subreddit of every
success response is the directory-derived name. -/
theorem metadata_independent_of_cache (env : AskEnv) (p u question : Str)
    (st1 st2 : RedisState) (a1 a2 : Str) (sub1 sub2 : Option Str)
    (anim1 anim2 : Str) (c1 c2 m1 m2 : Nat)
    (h1 : (askHandler env (some p) (some u) question st1).1 = .ok a1 sub1 anim1 c1 m1)
    (h2 : (askHandler env (some p) (some u) question st2).1 = .ok a2 sub2 anim2 c2 m2) :
    sub1 = (getSubredditInfo env.dir).map SubredditInfo.name
    ∧ a1 = a2 ∧ sub1 = sub2 := by
  obtain ⟨hg1, hs1⟩ := ask_ok_inv env p u question st1 a1 sub1 anim1 c1 m1 h1
  obtain ⟨hg2, hs2⟩ := ask_ok_inv env p u question st2 a2 sub2 anim2 c2 m2 h2
  refine ⟨hs1, ?_, hs1.trans hs2.symm⟩
  rw [hg1] at hg2
  exact Option.some.inj hg2

/-- Counterexample for C4 as stated: a fresh cache entry for `r/fresh`
is present in the store, yet `get_metadata` does not return it — the
result is the external directory's normalization, which differs from
the cached entry. -/
theorem metadata_cache_counterexample :
    rget stWithCache (subredditKey (strOf "fresh")) = some (.subInfo cachedFresh)
    ∧ getSubredditInfo dirFresh ≠ some cachedFresh
    ∧ getSubredditInfo dirFresh = some infoFresh := by decide

/-- Witness for the amended C4: the same request over a store holding a
fresh cache entry and over an empty store. -/
theorem metadata_independent_of_cache_witness :
    (askHandler envFresh (some (strOf "p")) (some (strOf "u")) (strOf "hi") stWithCache).1
      = .ok (strOf "The mods of r/fresh say yes") (some (strOf "fresh")) (strOf "reveal") 1 1
    ∧ (some (strOf "fresh") = (getSubredditInfo envFresh.dir).map SubredditInfo.name
       ∧ strOf "The mods of r/fresh say yes" = strOf "The mods of r/fresh say yes"
       ∧ (some (strOf "fresh") : Option Str) = some (strOf "fresh")) :=
  ⟨by decide,
   metadata_independent_of_cache envFresh (strOf "p") (strOf "u") (strOf "hi")
     stWithCache ⟨[]⟩ (strOf "The mods of r/fresh say yes")
     (strOf "The mods of r/fresh say yes") (some (strOf "fresh")) (some (strOf "fresh"))
     (strOf "reveal") (strOf "reveal") 1 1 1 1 (by decide) (by decide)⟩

-- ### Store-level claims: key collisions (C3)

theorem answerKey_inj_t (p u : Str) (t1 t2 : Nat)
    (h : answerKey p u t1 = answerKey p u t2) : t1 = t2 := by
  rw [answerKey_eq, answerKey_eq] at h
  exact natToDigits_injective (List.append_cancel_left h)

/-- C3 (amended): two Answer Records for the same (context, user) pair
collide exactly when written within the same clock tick: with distinct
`Date.now()` values the keys differ and both records remain
independently retrievable after both writes, while within the same tick
the keys are equal and the second write overwrites the first. -/
theorem answer_records_collide_iff_same_tick (st : RedisState) (p u : Str)
    (t1 t2 : Nat) (v1 v2 : RVal) :
    (answerKey p u t1 = answerKey p u t2 ↔ t1 = t2)
    ∧ (t1 ≠ t2 →
        rget (rset (rset st (answerKey p u t1) v1) (answerKey p u t2) v2)
          (answerKey p u t1) = some v1
        ∧ rget (rset (rset st (answerKey p u t1) v1) (answerKey p u t2) v2)
            (answerKey p u t2) = some v2)
    ∧ (t1 = t2 →
        rget (rset (rset st (answerKey p u t1) v1) (answerKey p u t2) v2)
          (answerKey p u t1) = some v2) := by
  refine ⟨⟨answerKey_inj_t p u t1 t2, fun h => by rw [h]⟩, ?_, ?_⟩
  · intro hne
    have hkne : answerKey p u t1 ≠ answerKey p u t2 :=
      fun hk => hne (answerKey_inj_t p u t1 t2 hk)
    exact ⟨by rw [rget_rset_ne _ _ _ _ hkne, rget_rset_self], rget_rset_self _ _ _⟩
  · intro heq
    rw [heq, rget_rset_self]

/-- Witness for the amended C3 at ticks 100 and 101. -/
theorem answer_records_collide_iff_same_tick_witness :
    rget (rset (rset ⟨[]⟩ (answerKey (strOf "p") (strOf "u") 100) (.str (strOf "a")))
        (answerKey (strOf "p") (strOf "u") 101) (.str (strOf "b")))
      (answerKey (strOf "p") (strOf "u") 100) = some (.str (strOf "a"))
    ∧ rget (rset (rset ⟨[]⟩ (answerKey (strOf "p") (strOf "u") 100) (.str (strOf "a")))
        (answerKey (strOf "p") (strOf "u") 101) (.str (strOf "b")))
      (answerKey (strOf "p") (strOf "u") 101) = some (.str (strOf "b")) :=
  (answer_records_collide_iff_same_tick ⟨[]⟩ (strOf "p") (strOf "u") 100 101
    (.str (strOf "a")) (.str (strOf "b"))).2.1 (by decide)

/-- The store after two valid asks from the same user in the same post
within the same clock tick (`Date.now() = 100` for both). -/
def stAfterTwoAsks : RedisState :=
  (askHandler envNoDir (some (strOf "p")) (some (strOf "u")) (strOf "q2")
    (askHandler envNoDir (some (strOf "p")) (some (strOf "u")) (strOf "q1") ⟨[]⟩).2).2

/-- Counterexample for C3 as stated: two asks in the same clock tick
leave a single Answer Record — the second overwrites the first, and
history retrieval returns one entry (the second question), not two. -/
theorem same_tick_overwrite_counterexample :
    historyHandler stAfterTwoAsks (some (strOf "p")) (some (strOf "u"))
      = .ok [⟨strOf "q2", strOf "It is certain", 100⟩]
    ∧ rget stAfterTwoAsks (answerKey (strOf "p") (strOf "u") 100)
        = some (.ansRec (strOf "q2") (strOf "It is certain") none) := by decide

-- ### Store-level claims: round-trip (C9)

/-- C9 (amended): writing an Answer Record under a key whose timestamp
is not already present for the pair, then immediately retrieving
history, yields an entry with the written question and answer text and
the written timestamp.  (An overwrite of an already-present timestamp
key keeps its old enumeration position and can fall outside the
`slice(-10)` scan window — see the counterexample.) -/
theorem write_then_history_roundtrip (st : RedisState) (p u : Str) (t : Nat)
    (q a : Str) (sub : Option Str)
    (hp : '*' ∉ p) (hu : '*' ∉ u)
    (hfresh : answerKey p u t ∉ st.entries.map Prod.fst) :
    (⟨q, a, t⟩ : HEntry)
      ∈ historyList (rset st (answerKey p u t) (.ansRec q a sub)) p u := by
  unfold historyList
  apply mem_sortNewestFirst
  apply mem_scanEntries_of_entryFor _ _ (answerKey p u t)
  · rw [rkeys_rset_fresh st _ _ _ hfresh (globMatch_answerKey p u t hp hu)]
    exact mem_lastTen_concat _ _
  · unfold entryFor
    rw [rget_rset_self]
    simp [decodeAnswerRec, tsOfKey_answerKey]

/-- Witness for the amended C9. -/
theorem write_then_history_roundtrip_witness :
    (⟨strOf "q", strOf "a", 100⟩ : HEntry)
      ∈ historyList (rset ⟨[]⟩ (answerKey (strOf "p") (strOf "u") 100)
          (.ansRec (strOf "q") (strOf "a") none)) (strOf "p") (strOf "u") :=
  write_then_history_roundtrip ⟨[]⟩ (strOf "p") (strOf "u") 100 (strOf "q") (strOf "a")
    none (by decide) (by decide) (by decide)

/-- A store holding an Answer Record at tick 5 in the earliest
enumeration position, followed by ten later records (ticks 6–15). -/
def stEleven : RedisState :=
  ⟨(answerKey (strOf "p") (strOf "u") 5, .ansRec (strOf "old") (strOf "x") none) ::
    (List.range 10).map (fun i =>
      (answerKey (strOf "p") (strOf "u") (6 + i), RVal.ansRec (strOf "o") (strOf "x") none))⟩

/-- `stEleven` after re-writing the tick-5 Answer Record (same key, so
the entry is updated in place at its early position). -/
def stOverwritten : RedisState :=
  rset stEleven (answerKey (strOf "p") (strOf "u") 5)
    (.ansRec (strOf "new") (strOf "x") none)

/-- Counterexample for C9 as stated: the tick-5 record was written (it
is retrievable by `get`) but history retrieval does not return it — its
key falls outside the `slice(-10)` window of the 11 matching keys. -/
theorem write_then_history_counterexample :
    rget stOverwritten (answerKey (strOf "p") (strOf "u") 5)
      = some (.ansRec (strOf "new") (strOf "x") none)
    ∧ (⟨strOf "new", strOf "x", 5⟩ : HEntry)
        ∉ historyList stOverwritten (strOf "p") (strOf "u") := by decide

-- ### Store-level claims: bounded sorted history (C1)

/-- C1 (amended): for a valid request, `/api/history` returns the
decoded records of the last 10 matching keys in store-enumeration
order, sorted newest-first — hence at most 10 entries, always sorted by
timestamp descending, and exactly all records for the pair (newest
first) whenever at most 10 exist; with more than 10, the kept 10 are
the last 10 in enumeration order, not necessarily the newest (see the
counterexample). -/
theorem history_sorted_bounded (st : RedisState) (p u : Str) :
    historyHandler st (some p) (some u) = .ok (historyList st p u)
    ∧ (historyList st p u).length ≤ 10
    ∧ List.Sorted newerFirst (historyList st p u)
    ∧ ((rkeys st (answerScanGlob p u)).length ≤ 10 →
        (historyList st p u).Perm (allHistoryEntries st p u)) := by
  refine ⟨rfl, ?_, sortNewestFirst_sorted _, ?_⟩
  · unfold historyList
    rw [sortNewestFirst_length]
    exact le_trans (scanEntries_length_le _ _) (lastTen_length_le _)
  · intro hle
    unfold historyList allHistoryEntries
    rw [lastTen_of_length_le _ hle]
    exact sortNewestFirst_perm _

/-- A two-record store used to witness C1. -/
def stTwo : RedisState :=
  ⟨[(answerKey (strOf "p") (strOf "u") 5, .ansRec (strOf "q1") (strOf "x") none),
    (answerKey (strOf "p") (strOf "u") 7, .ansRec (strOf "q2") (strOf "y") none)]⟩

/-- Witness for the amended C1 on a two-record store. -/
theorem history_sorted_bounded_witness :
    historyHandler stTwo (some (strOf "p")) (some (strOf "u"))
      = .ok (historyList stTwo (strOf "p") (strOf "u"))
    ∧ (historyList stTwo (strOf "p") (strOf "u")).length ≤ 10
    ∧ List.Sorted newerFirst (historyList stTwo (strOf "p") (strOf "u"))
    ∧ (historyList stTwo (strOf "p") (strOf "u")).Perm
        (allHistoryEntries stTwo (strOf "p") (strOf "u")) :=
  have h := history_sorted_bounded stTwo (strOf "p") (strOf "u")
  ⟨h.1, h.2.1, h.2.2.1, h.2.2.2 (by decide)⟩

/-- A store whose NEWEST Answer Record (tick 20) sits in the earliest
enumeration position, followed by ten older records (ticks 6–15). -/
def stNewestFirst : RedisState :=
  ⟨(answerKey (strOf "p") (strOf "u") 20, .ansRec (strOf "newest") (strOf "x") none) ::
    (List.range 10).map (fun i =>
      (answerKey (strOf "p") (strOf "u") (6 + i), RVal.ansRec (strOf "o") (strOf "x") none))⟩

/-- Counterexample for C1 as stated: with 11 records whose newest comes
first in enumeration order, the `slice(-10)`-before-sort drops the
newest record, so the result is NOT the 10 newest records. -/
theorem history_drops_newest_counterexample :
    (⟨strOf "newest", strOf "x", 20⟩ : HEntry)
      ∈ allHistoryEntries stNewestFirst (strOf "p") (strOf "u")
    ∧ (historyList stNewestFirst (strOf "p") (strOf "u")).length = 10
    ∧ (⟨strOf "newest", strOf "x", 20⟩ : HEntry)
        ∉ historyList stNewestFirst (strOf "p") (strOf "u") := by decide
